import Mathlib

/-!
Verification of the readiness-signaling and pod-metadata-cache core of the
user_pods_k8s_backend repository, against its natural-language specification.

The Go source is shallowly embedded: channels with capacity one become
`Option Bool` buffers, concurrent interactions with a `ReadyChannel` become
sequential traces of operations (the Go code serializes them through the
channel itself and the `Receive` mutex), byte buffers become `List Nat`,
Go maps become association lists or functions into `Option`, and calls to
the cluster control plane or to a pod's container become explicit
environment parameters recording what the outside world answers.
-/

namespace UserPods

/-! ## util.ReadyChannel (src/unnamed/part_001)

The Go struct holds a buffered channel of capacity one (`ch`), a flag
`receivedYet` and the cached `firstValue`.  The buffer is modelled by an
`Option Bool`: `none` is an empty buffer, `some v` a buffer holding `v`. -/

/-- State of a `util.ReadyChannel`: the capacity-one buffered channel, the
`receivedYet` flag and the cached `firstValue` (both `false` at creation). -/
structure ReadyChannel where
  ch : Option Bool
  receivedYet : Bool
  firstValue : Bool
deriving DecidableEq

/-- `util.NewReadyChannel`: a fresh state with an empty buffer.  The timeout
timer the Go constructor starts is modelled as a `Send false` event occurring
in the operation trace (see `timerTrace`). -/
def NewReadyChannel : ReadyChannel :=
  { ch := none, receivedYet := false, firstValue := false }

/-- `util.ReadyChannel.Send`: non-blocking send (`select` with `default`);
if the one-slot buffer is already full this does nothing. -/
def ReadyChannel.Send (t : ReadyChannel) (value : Bool) : ReadyChannel :=
  match t.ch with
  | none => { t with ch := some value }
  | some _ => t

/-- `util.ReadyChannel.Receive`: if a value was already received, return it
again; otherwise take the value out of the buffer, cache it, and return it.
`none` models the call blocking (no value available yet); the Go mutex makes
concurrent `Receive` calls sequential, which the trace semantics reflects. -/
def ReadyChannel.Receive (t : ReadyChannel) : Option (Bool × ReadyChannel) :=
  if t.receivedYet = true then
    some (t.firstValue, t)
  else
    match t.ch with
    | none => none
    | some v => some (v, { ch := none, receivedYet := true, firstValue := v })

/-- One operation performed on a `ReadyChannel` by some goroutine: a `Send`
(from the event classifier, the combinator, or the timeout timer) or a
`Receive`. -/
inductive RCOp where
  | send (b : Bool)
  | receive
deriving DecidableEq

/-- Run a sequential trace of operations on a `ReadyChannel`; returns the
final state and the values returned by the `Receive` calls that completed
(a `Receive` finding no value yet is still blocked and returns nothing). -/
def runOps : List RCOp → ReadyChannel → ReadyChannel × List Bool
  | [], t => (t, [])
  | RCOp.send b :: rest, t => runOps rest (t.Send b)
  | RCOp.receive :: rest, t =>
    match t.Receive with
    | none => runOps rest t
    | some (v, t') => ((runOps rest t').1, v :: (runOps rest t').2)

/-- The first value passed to `Send` in a trace, if any. -/
def firstSend : List RCOp → Option Bool
  | [] => none
  | RCOp.send b :: _ => some b
  | RCOp.receive :: rest => firstSend rest

/-- Invariant tying a channel state to the first value ever sent (`none`
when no `Send` has happened yet): before the first `Receive` the buffer
holds exactly that value, afterwards it is cached in `firstValue`. -/
def rcInv (t : ReadyChannel) : Option Bool → Prop
  | none => t.ch = none ∧ t.receivedYet = false
  | some v =>
      (t.receivedYet = true → t.firstValue = v) ∧
      (t.receivedYet = false → t.ch = some v)

theorem rcInv_send_some (t : ReadyChannel) (v b : Bool) (h : rcInv t (some v)) :
    rcInv (t.Send b) (some v) := by
  obtain ⟨ch, ry, fv⟩ := t
  cases ch with
  | none =>
    obtain ⟨h1, h2⟩ := h
    cases ry with
    | false => exact absurd (h2 rfl) (by simp)
    | true => exact ⟨fun _ => h1 rfl, by simp [ReadyChannel.Send]⟩
  | some w => exact h

theorem runOps_mem_received (ops : List RCOp) :
    ∀ (t : ReadyChannel) (v₀ : Option Bool), rcInv t v₀ →
      ∀ v ∈ (runOps ops t).2, v₀.or (firstSend ops) = some v := by
  induction ops with
  | nil =>
    intro t v₀ _ v hv
    simp [runOps] at hv
  | cons op rest ih =>
    intro t v₀ hinv v hv
    cases op with
    | send b =>
      have hv' : v ∈ (runOps rest (t.Send b)).2 := by simpa [runOps] using hv
      cases v₀ with
      | none =>
        obtain ⟨hch, hry⟩ := hinv
        have hinv' : rcInv (t.Send b) (some b) := by
          obtain ⟨ch, ry, fv⟩ := t
          simp only at hch hry
          subst hch hry
          exact ⟨by simp [ReadyChannel.Send], by simp [ReadyChannel.Send]⟩
        have := ih (t.Send b) (some b) hinv' v hv'
        simpa [firstSend, Option.or] using this
      | some w =>
        have := ih (t.Send b) (some w) (rcInv_send_some t w b hinv) v hv'
        simpa [Option.or] using this
    | receive =>
      cases v₀ with
      | none =>
        obtain ⟨hch, hry⟩ := hinv
        have hrecv : t.Receive = none := by
          simp [ReadyChannel.Receive, hry, hch]
        have hv' : v ∈ (runOps rest t).2 := by
          simpa [runOps, hrecv] using hv
        have := ih t none ⟨hch, hry⟩ v hv'
        simpa [firstSend, Option.or] using this
      | some w =>
        obtain ⟨h1, h2⟩ := hinv
        cases hry : t.receivedYet with
        | true =>
          have hfv : t.firstValue = w := h1 hry
          have hrecv : t.Receive = some (w, t) := by
            simp [ReadyChannel.Receive, hry, hfv]
          have hv' : v = w ∨ v ∈ (runOps rest t).2 := by
            simpa [runOps, hrecv] using hv
          cases hv' with
          | inl he => simp [Option.or, he]
          | inr hm =>
            have := ih t (some w) ⟨h1, h2⟩ v hm
            simpa [Option.or] using this
        | false =>
          have hch : t.ch = some w := h2 hry
          have hrecv : t.Receive =
              some (w, { ch := none, receivedYet := true, firstValue := w }) := by
            simp [ReadyChannel.Receive, hry, hch]
          have hv' : v = w ∨
              v ∈ (runOps rest
                { ch := none, receivedYet := true, firstValue := w }).2 := by
            simpa [runOps, hrecv] using hv
          cases hv' with
          | inl he => simp [Option.or, he]
          | inr hm =>
            have hinv' :
                rcInv { ch := none, receivedYet := true, firstValue := w }
                  (some w) := ⟨fun _ => rfl, by simp⟩
            have := ih _ (some w) hinv' v hm
            simpa [Option.or] using this

/-- Claim C1: in every sequential trace of `Send` and `Receive` operations on
a freshly constructed `ReadyChannel` (sends coming from any source: the event
classifier, the combinator, or the timeout timer), every `Receive` call that
completes — no matter how many callers, before or after resolution — returns
the value of the first `Send` of the trace; later `Send` calls never change
any `Receive` result. -/
theorem readyChannel_first_send_wins (ops : List RCOp) (v : Bool)
    (hv : v ∈ (runOps ops NewReadyChannel).2) : firstSend ops = some v := by
  have := runOps_mem_received ops NewReadyChannel none
    (by exact ⟨rfl, rfl⟩) v hv
  simpa [Option.or] using this

/-- Witness for C1: a concrete trace where `true` is sent first, then `false`
(for example by the timeout timer), with two `Receive` calls around it. -/
theorem readyChannel_first_send_wins_witness :
    firstSend [RCOp.send true, RCOp.receive, RCOp.send false, RCOp.receive]
      = some true :=
  readyChannel_first_send_wins
    [RCOp.send true, RCOp.receive, RCOp.send false, RCOp.receive] true
    (by decide)

/-! ## util.ReceiveReadyChannels and util.CombineReadyChannels

`ReceiveReadyChannels` blocks on `ch.Receive()` for every channel in the
input list; by C1/C8 each channel always resolves (the construction timer
guarantees it), so the list of values those `Receive` calls return is the
input of the model.  The Go loop starts with `output := true` and sets
`output = false` whenever a received value is false. -/

/-- `util.ReceiveReadyChannels`: `inputValues` are the resolved values the
`Receive` call on each input channel returns. -/
def ReceiveReadyChannels (inputValues : List Bool) : Bool :=
  inputValues.foldl (fun output v => if v = false then false else output) true

/-- `util.CombineReadyChannels`: receive every input, then `Send` the
conjunction into the output channel. -/
def CombineReadyChannels (inputValues : List Bool) (outputChannel : ReadyChannel) :
    ReadyChannel :=
  outputChannel.Send (ReceiveReadyChannels inputValues)

theorem receiveReadyChannels_foldl (l : List Bool) :
    ∀ acc : Bool,
      l.foldl (fun output v => if v = false then false else output) acc
        = (acc && l.all fun v => v) := by
  induction l with
  | nil => intro acc; simp
  | cons b rest ih =>
    intro acc
    rw [List.foldl_cons, ih]
    cases b with
    | false => simp
    | true => simp

/-- Claim C2: `ReceiveReadyChannels` returns the conjunction of the resolved
values of its input channels — true exactly when every channel resolved true
(so false whenever any channel resolved false, including by timeout), and
true for the empty list — and `CombineReadyChannels` publishes exactly that
aggregate into a fresh output channel, whose `Receive` then returns it. -/
theorem receiveReadyChannels_conjunction (inputValues : List Bool) :
    ReceiveReadyChannels inputValues = (inputValues.all fun v => v)
    ∧ ReceiveReadyChannels [] = true
    ∧ (CombineReadyChannels inputValues NewReadyChannel).Receive
        = some (ReceiveReadyChannels inputValues,
            { ch := none, receivedYet := true,
              firstValue := ReceiveReadyChannels inputValues }) := by
  refine ⟨?_, rfl, ?_⟩
  · have h := receiveReadyChannels_foldl inputValues true
    rw [Bool.true_and] at h
    exact h
  · simp [CombineReadyChannels, NewReadyChannel, ReadyChannel.Send,
      ReadyChannel.Receive]

/-! ## The construction timer (claim C8)

`NewReadyChannel` starts a goroutine that calls `Send false` when the
timeout elapses.  Real time is modelled by the position of that send in the
operation trace: sends by other sources that the scheduler delivers before
the timer come first, then the timer's `Send false`, then any later sends,
then the `Receive` calls (which by then no longer block). -/

/-- Trace of a `ReadyChannel` life: `before` are values sent by other
sources before the timeout elapses, then the construction timer's
`Send false`, then `after` sent later, then `receives` many `Receive`s. -/
def timerTrace (before after : List Bool) (receives : Nat) : List RCOp :=
  ((before ++ false :: after).map RCOp.send) ++ List.replicate receives RCOp.receive

theorem runOps_append (xs ys : List RCOp) (t : ReadyChannel) :
    runOps (xs ++ ys) t =
      ((runOps ys (runOps xs t).1).1,
        (runOps xs t).2 ++ (runOps ys (runOps xs t).1).2) := by
  induction xs generalizing t with
  | nil => simp [runOps]
  | cons op rest ih =>
    cases op with
    | send b => simp [runOps, ih]
    | receive =>
      cases h : t.Receive with
      | none => simp [runOps, h, ih]
      | some p =>
        obtain ⟨v, t'⟩ := p
        simp [runOps, h, ih]

theorem runOps_sends_full (l : List Bool) (t : ReadyChannel) (v : Bool)
    (h : t.ch = some v) : runOps (l.map RCOp.send) t = (t, []) := by
  induction l with
  | nil => simp [runOps]
  | cons b rest ih =>
    have hsend : t.Send b = t := by
      obtain ⟨ch, ry, fv⟩ := t
      simp only at h
      subst h
      rfl
    simp [runOps, hsend, ih]

theorem runOps_receives_resolved (k : Nat) (t : ReadyChannel)
    (h : t.receivedYet = true) :
    runOps (List.replicate k RCOp.receive) t = (t, List.replicate k t.firstValue) := by
  induction k with
  | zero => simp [runOps]
  | succ n ih =>
    have hrecv : t.Receive = some (t.firstValue, t) := by
      simp [ReadyChannel.Receive, h]
    simp [List.replicate_succ, runOps, hrecv, ih]

/-- Claim C8: with the construction timer's `Send false` in the trace, the
channel always resolves — every `Receive` completes (never blocks past the
timeout event) — and returns `false` when no other source ever sent, while a
`Send true` delivered before the timer makes every `Receive` return `true`,
the timer's later `Send false` having no effect. -/
theorem readyChannel_timeout_resolution (before after : List Bool) (receives : Nat) :
    (runOps (timerTrace before after receives) NewReadyChannel).2
      = List.replicate receives (before.headD false) := by
  have hmain : ∀ (b : Bool) (l : List Bool),
      runOps ((b :: l).map RCOp.send) NewReadyChannel
        = ({ ch := some b, receivedYet := false, firstValue := false }, []) := by
    intro b l
    have h1 : NewReadyChannel.Send b
        = { ch := some b, receivedYet := false, firstValue := false } := rfl
    have h2 := runOps_sends_full l
      { ch := some b, receivedYet := false, firstValue := false } b rfl
    simp [runOps, h1, h2]
  have hrecv : ∀ (b : Bool) (k : Nat),
      runOps (List.replicate k RCOp.receive)
          { ch := some b, receivedYet := false, firstValue := false }
        = (if k = 0 then ({ ch := some b, receivedYet := false, firstValue := false })
            else { ch := none, receivedYet := true, firstValue := b },
          List.replicate k b) := by
    intro b k
    cases k with
    | zero => simp [runOps]
    | succ n =>
      have h1 : ReadyChannel.Receive
          { ch := some b, receivedYet := false, firstValue := false }
          = some (b, { ch := none, receivedYet := true, firstValue := b }) := rfl
      have h2 := runOps_receives_resolved n
        { ch := none, receivedYet := true, firstValue := b } rfl
      simp [List.replicate_succ, runOps, h1, h2]
  cases before with
  | nil =>
    have := runOps_append ((false :: after).map RCOp.send)
      (List.replicate receives RCOp.receive) NewReadyChannel
    simp only [timerTrace, List.nil_append]
    rw [this, hmain false after]
    simp [hrecv false receives]
  | cons b rest =>
    have := runOps_append ((b :: (rest ++ false :: after)).map RCOp.send)
      (List.replicate receives RCOp.receive) NewReadyChannel
    simp only [timerTrace, List.cons_append]
    rw [this, hmain b (rest ++ false :: after)]
    simp [hrecv b receives]

/-! ## Resource event classifiers (src/k8sclient/k8sclient.go)

Each `signal*` function ranges over the watcher's event stream.  The stream
is modelled as the list of events the watcher delivers; `watcher.Stop()`
closes the result channel, ending the range loop, so a classifier returns
the `TrySend` values it pushed together with the events left undelivered
when it stopped. -/

/-- The `watch.EventType` values of the Kubernetes watch package. -/
inductive WatchEventType where
  | Added
  | Modified
  | Deleted
  | Bookmark
  | Error
deriving DecidableEq

/-- A watch event for a Pod: its type and the pod's status conditions as
(condition type, condition status) pairs, e.g. ("Ready", "True"). -/
structure PodWatchEvent where
  etype : WatchEventType
  conditions : List (String × String)
deriving DecidableEq

/-- A watch event for a PersistentVolume or PersistentVolumeClaim: its type
and the resource's status phase, e.g. "Available" or "Bound". -/
structure PhaseWatchEvent where
  etype : WatchEventType
  phase : String
deriving DecidableEq

/-- The inner loop of `signalPodReady`: scan the pod's conditions for the
first one whose Type is "Ready" (`apiv1.PodReady`) and report whether its
Status is "True" (`apiv1.ConditionTrue`); the Go loop breaks right after
examining that first "Ready" condition. -/
def podReadyCondition : List (String × String) → Bool
  | [] => false
  | c :: rest => if c.1 = "Ready" then decide (c.2 = "True") else podReadyCondition rest

/-- `k8sclient.signalPodReady`: on a Modified event whose first "Ready"
condition has status "True", stop the watcher and `TrySend true`. -/
def signalPodReady : List PodWatchEvent → List Bool × List PodWatchEvent
  | [] => ([], [])
  | e :: rest =>
    if e.etype = WatchEventType.Modified then
      if podReadyCondition e.conditions then ([true], rest)
      else signalPodReady rest
    else signalPodReady rest

/-- `k8sclient.signalPVReady`: on a Modified event whose phase is
"Available" (`apiv1.VolumeAvailable`), stop the watcher and `TrySend true`. -/
def signalPVReady : List PhaseWatchEvent → List Bool × List PhaseWatchEvent
  | [] => ([], [])
  | e :: rest =>
    if e.etype = WatchEventType.Modified then
      if e.phase = "Available" then ([true], rest)
      else signalPVReady rest
    else signalPVReady rest

/-- `k8sclient.signalPVCReady`: on a Modified event whose phase is
"Bound" (`apiv1.ClaimBound`), stop the watcher and `TrySend true`. -/
def signalPVCReady : List PhaseWatchEvent → List Bool × List PhaseWatchEvent
  | [] => ([], [])
  | e :: rest =>
    if e.etype = WatchEventType.Modified then
      if e.phase = "Bound" then ([true], rest)
      else signalPVCReady rest
    else signalPVCReady rest

/-- `k8sclient.signalDeleted`: on a Deleted event (regardless of resource
kind, only the event type is consulted), stop the watcher and
`TrySend true`. -/
def signalDeleted : List WatchEventType → List Bool × List WatchEventType
  | [] => ([], [])
  | e :: rest =>
    if e = WatchEventType.Deleted then ([true], rest)
    else signalDeleted rest

/-- Terminal condition for a Pod per the spec: a modified event whose
(first) condition of type "Ready" has status "True". -/
def isPodReadyEvent (e : PodWatchEvent) : Bool :=
  decide (e.etype = WatchEventType.Modified) &&
    (((e.conditions.find? fun c => decide (c.1 = "Ready")).map
        fun c => decide (c.2 = "True")).getD false)

/-- Terminal condition for a PersistentVolume: a modified event with phase
"Available". -/
def isPVAvailableEvent (e : PhaseWatchEvent) : Bool :=
  decide (e.etype = WatchEventType.Modified) && decide (e.phase = "Available")

/-- Terminal condition for a PersistentVolumeClaim: a modified event with
phase "Bound". -/
def isPVCBoundEvent (e : PhaseWatchEvent) : Bool :=
  decide (e.etype = WatchEventType.Modified) && decide (e.phase = "Bound")

/-- Terminal condition for a deletion watch: a deleted event. -/
def isDeletedEvent (e : WatchEventType) : Bool :=
  decide (e = WatchEventType.Deleted)

/-- Generic shape shared by the four classifier loops: scan the delivered
events, and at the first one satisfying `p` emit a single `true` and stop,
leaving the rest of the stream unconsumed. -/
def scanFor (p : α → Bool) : List α → List Bool × List α
  | [] => ([], [])
  | e :: rest => if p e then ([true], rest) else scanFor p rest

theorem scanFor_no_match (p : α → Bool) (l : List α)
    (h : ∀ e ∈ l, p e = false) : scanFor p l = ([], []) := by
  induction l with
  | nil => rfl
  | cons e rest ih =>
    have he : p e = false := h e (by simp)
    simp [scanFor, he, ih fun x hx => h x (by simp [hx])]

theorem scanFor_first_match (p : α → Bool) (pre : List α) (e : α) (post : List α)
    (hpre : ∀ x ∈ pre, p x = false) (he : p e = true) :
    scanFor p (pre ++ e :: post) = ([true], post) := by
  induction pre with
  | nil => simp [scanFor, he]
  | cons x rest ih =>
    have hx : p x = false := hpre x (by simp)
    simp [scanFor, hx, ih fun y hy => hpre y (by simp [hy])]

theorem scanFor_sends_true (p : α → Bool) (l : List α) :
    ∀ b ∈ (scanFor p l).1, b = true := by
  induction l with
  | nil => simp [scanFor]
  | cons e rest ih =>
    by_cases he : p e = true
    · simp [scanFor, he]
    · have he' : p e = false := by simpa using he
      simpa [scanFor, he'] using ih

theorem podReadyCondition_eq_find (conds : List (String × String)) :
    podReadyCondition conds
      = ((conds.find? fun c => decide (c.1 = "Ready")).map
          fun c => decide (c.2 = "True")).getD false := by
  induction conds with
  | nil => rfl
  | cons c rest ih =>
    by_cases hc : c.1 = "Ready"
    · simp [podReadyCondition, hc, List.find?]
    · simp [podReadyCondition, hc, List.find?, ih]

theorem signalPodReady_eq_scanFor (l : List PodWatchEvent) :
    signalPodReady l = scanFor isPodReadyEvent l := by
  induction l with
  | nil => rfl
  | cons e rest ih =>
    by_cases hm : e.etype = WatchEventType.Modified
    · by_cases hr : podReadyCondition e.conditions = true
      · have hp : isPodReadyEvent e = true := by
          simp [isPodReadyEvent, hm, ← podReadyCondition_eq_find, hr]
        simp [signalPodReady, hm, hr, scanFor, hp]
      · have hp : isPodReadyEvent e = false := by
          simp only [isPodReadyEvent, ← podReadyCondition_eq_find]
          simp [hr]
        simp [signalPodReady, hm, hr, scanFor, hp, ih]
    · have hp : isPodReadyEvent e = false := by
        simp [isPodReadyEvent, hm]
      simp [signalPodReady, hm, scanFor, hp, ih]

theorem signalPVReady_eq_scanFor (l : List PhaseWatchEvent) :
    signalPVReady l = scanFor isPVAvailableEvent l := by
  induction l with
  | nil => rfl
  | cons e rest ih =>
    by_cases hm : e.etype = WatchEventType.Modified
    · by_cases hr : e.phase = "Available"
      · simp [signalPVReady, hm, hr, scanFor, isPVAvailableEvent]
      · simp [signalPVReady, hm, hr, scanFor, isPVAvailableEvent, ih]
    · simp [signalPVReady, hm, scanFor, isPVAvailableEvent, ih]

theorem signalPVCReady_eq_scanFor (l : List PhaseWatchEvent) :
    signalPVCReady l = scanFor isPVCBoundEvent l := by
  induction l with
  | nil => rfl
  | cons e rest ih =>
    by_cases hm : e.etype = WatchEventType.Modified
    · by_cases hr : e.phase = "Bound"
      · simp [signalPVCReady, hm, hr, scanFor, isPVCBoundEvent]
      · simp [signalPVCReady, hm, hr, scanFor, isPVCBoundEvent, ih]
    · simp [signalPVCReady, hm, scanFor, isPVCBoundEvent, ih]

theorem signalDeleted_eq_scanFor (l : List WatchEventType) :
    signalDeleted l = scanFor isDeletedEvent l := by
  induction l with
  | nil => rfl
  | cons e rest ih =>
    by_cases hd : e = WatchEventType.Deleted
    · simp [signalDeleted, hd, scanFor, isDeletedEvent]
    · simp [signalDeleted, hd, scanFor, isDeletedEvent, ih]

/-- Claim C7: each per-kind classifier sends `true` exactly once, precisely
at the first event matching its terminal condition (Pod: modified with Ready
condition "True"; PersistentVolume: modified with phase "Available";
PersistentVolumeClaim: modified with phase "Bound"; deletion watch: deleted
event), stopping its subscription there; it ignores every event of another
type or phase (sending nothing when no event matches), and it never sends
`false`. -/
theorem classifiers_signal_once :
    (∀ l : List PodWatchEvent, (∀ e ∈ l, isPodReadyEvent e = false) →
      signalPodReady l = ([], []))
    ∧ (∀ (pre : List PodWatchEvent) (e : PodWatchEvent) (post : List PodWatchEvent),
        (∀ x ∈ pre, isPodReadyEvent x = false) → isPodReadyEvent e = true →
        signalPodReady (pre ++ e :: post) = ([true], post))
    ∧ (∀ (l : List PodWatchEvent), ∀ b ∈ (signalPodReady l).1, b = true)
    ∧ (∀ l : List PhaseWatchEvent, (∀ e ∈ l, isPVAvailableEvent e = false) →
      signalPVReady l = ([], []))
    ∧ (∀ (pre : List PhaseWatchEvent) (e : PhaseWatchEvent) (post : List PhaseWatchEvent),
        (∀ x ∈ pre, isPVAvailableEvent x = false) → isPVAvailableEvent e = true →
        signalPVReady (pre ++ e :: post) = ([true], post))
    ∧ (∀ (l : List PhaseWatchEvent), ∀ b ∈ (signalPVReady l).1, b = true)
    ∧ (∀ l : List PhaseWatchEvent, (∀ e ∈ l, isPVCBoundEvent e = false) →
      signalPVCReady l = ([], []))
    ∧ (∀ (pre : List PhaseWatchEvent) (e : PhaseWatchEvent) (post : List PhaseWatchEvent),
        (∀ x ∈ pre, isPVCBoundEvent x = false) → isPVCBoundEvent e = true →
        signalPVCReady (pre ++ e :: post) = ([true], post))
    ∧ (∀ (l : List PhaseWatchEvent), ∀ b ∈ (signalPVCReady l).1, b = true)
    ∧ (∀ l : List WatchEventType, (∀ e ∈ l, isDeletedEvent e = false) →
      signalDeleted l = ([], []))
    ∧ (∀ (pre : List WatchEventType) (e : WatchEventType) (post : List WatchEventType),
        (∀ x ∈ pre, isDeletedEvent x = false) → isDeletedEvent e = true →
        signalDeleted (pre ++ e :: post) = ([true], post))
    ∧ (∀ (l : List WatchEventType), ∀ b ∈ (signalDeleted l).1, b = true) := by
  refine ⟨?_, ?_, ?_, ?_, ?_, ?_, ?_, ?_, ?_, ?_, ?_, ?_⟩
  · intro l h; rw [signalPodReady_eq_scanFor]; exact scanFor_no_match _ l h
  · intro pre e post hpre he
    rw [signalPodReady_eq_scanFor]; exact scanFor_first_match _ pre e post hpre he
  · intro l; rw [signalPodReady_eq_scanFor]; exact scanFor_sends_true _ l
  · intro l h; rw [signalPVReady_eq_scanFor]; exact scanFor_no_match _ l h
  · intro pre e post hpre he
    rw [signalPVReady_eq_scanFor]; exact scanFor_first_match _ pre e post hpre he
  · intro l; rw [signalPVReady_eq_scanFor]; exact scanFor_sends_true _ l
  · intro l h; rw [signalPVCReady_eq_scanFor]; exact scanFor_no_match _ l h
  · intro pre e post hpre he
    rw [signalPVCReady_eq_scanFor]; exact scanFor_first_match _ pre e post hpre he
  · intro l; rw [signalPVCReady_eq_scanFor]; exact scanFor_sends_true _ l
  · intro l h; rw [signalDeleted_eq_scanFor]; exact scanFor_no_match _ l h
  · intro pre e post hpre he
    rw [signalDeleted_eq_scanFor]; exact scanFor_first_match _ pre e post hpre he
  · intro l; rw [signalDeleted_eq_scanFor]; exact scanFor_sends_true _ l

/-- Witness for C7: each classifier fires exactly once on a concrete stream
whose first event does not match and whose second does, with a trailing
event left undelivered. -/
theorem classifiers_signal_once_witness :
    signalPodReady
        [⟨WatchEventType.Added, []⟩,
         ⟨WatchEventType.Modified, [("Ready", "True")]⟩,
         ⟨WatchEventType.Modified, []⟩]
      = ([true], [⟨WatchEventType.Modified, []⟩])
    ∧ signalPVReady
        [⟨WatchEventType.Modified, "Pending"⟩,
         ⟨WatchEventType.Modified, "Available"⟩,
         ⟨WatchEventType.Added, "Available"⟩]
      = ([true], [⟨WatchEventType.Added, "Available"⟩])
    ∧ signalPVCReady
        [⟨WatchEventType.Modified, "Pending"⟩,
         ⟨WatchEventType.Modified, "Bound"⟩,
         ⟨WatchEventType.Added, "Bound"⟩]
      = ([true], [⟨WatchEventType.Added, "Bound"⟩])
    ∧ signalDeleted
        [WatchEventType.Modified, WatchEventType.Deleted, WatchEventType.Added]
      = ([true], [WatchEventType.Added]) :=
  ⟨classifiers_signal_once.2.1
      [⟨WatchEventType.Added, []⟩] ⟨WatchEventType.Modified, [("Ready", "True")]⟩
      [⟨WatchEventType.Modified, []⟩] (by decide) (by decide),
   classifiers_signal_once.2.2.2.2.1
      [⟨WatchEventType.Modified, "Pending"⟩] ⟨WatchEventType.Modified, "Available"⟩
      [⟨WatchEventType.Added, "Available"⟩] (by decide) (by decide),
   classifiers_signal_once.2.2.2.2.2.2.2.1
      [⟨WatchEventType.Modified, "Pending"⟩] ⟨WatchEventType.Modified, "Bound"⟩
      [⟨WatchEventType.Added, "Bound"⟩] (by decide) (by decide),
   classifiers_signal_once.2.2.2.2.2.2.2.2.2.2.1
      [WatchEventType.Modified] WatchEventType.Deleted
      [WatchEventType.Added] (by decide) (by decide)⟩

/-! ## k8sclient.WatchFor (src/k8sclient/k8sclient.go) -/

/-- Modelled from the spec: `util.TrySend` (referenced by k8sclient.go but
not among the provided source files) performs a non-blocking send into a
capacity-one boolean channel, exactly like `ReadyChannel.Send`: a no-op when
the buffer is already full. -/
def TrySend (ch : Option Bool) (value : Bool) : Option Bool :=
  match ch with
  | none => some value
  | some v => some v

/-- Everything `k8sclient.WatchFor` makes visible to its environment: the
readiness channel after the call, the lines printed to standard output, the
value returned to the immediate caller (the Go function has an empty return
signature, so this component is always `none`), and whether a watcher was
created and handed to the classifier. -/
structure WatchForResult where
  ch : Option Bool
  logged : List String
  errorToCaller : Option String
  startedWatch : Bool
deriving DecidableEq

/-- The error produced by the watcher-construction switch in `WatchFor`:
an unsupported resource type is a local error; for the four supported kinds
("Pod", "PV", "PVC", "SVC") the outcome is whatever the control-plane Watch
call answered (`connectErr`). -/
def watchForSetupError (resourceType : String) (connectErr : Option String) :
    Option String :=
  if resourceType = "Pod" ∨ resourceType = "PV" ∨ resourceType = "PVC"
      ∨ resourceType = "SVC" then
    connectErr
  else
    some "Unsupported resource type for watcher"

/-- `k8sclient.WatchFor`: build a watcher for the named resource of the
given type; on a setup error, `TrySend false` into the channel, print the
error and return (no timer started, no classifier invoked); otherwise start
the timeout timer and hand the event stream to the classifier.  `connectErr`
models the control plane's answer to the Watch call; the post-setup behavior
(timer and classifier) is covered by `timerTrace` and the `signal*`
theorems. -/
def WatchFor (name : String) (resourceType : String) (connectErr : Option String)
    (ch : Option Bool) : WatchForResult :=
  match watchForSetupError resourceType connectErr with
  | some e =>
    { ch := TrySend ch false
      logged := ["Error in WatchFor: " ++ e]
      errorToCaller := none
      startedWatch := false }
  | none =>
    { ch := ch, logged := [], errorToCaller := none, startedWatch := true }

/-- Counterexample to C4 at the concrete input resource type "Secret" with a
fresh channel: the setup error is only printed (the log is non-empty), and
nothing is reported to the immediate caller — the Go function has no return
values, so `errorToCaller` is `none`, refuting the claim that the setup
error is reported to the immediate caller. -/
theorem watchFor_error_not_returned_counterexample :
    ((WatchFor "pod1" "Secret" none none).errorToCaller = none
      ∧ (WatchFor "pod1" "Secret" none none).logged
          = ["Error in WatchFor: Unsupported resource type for watcher"])
    ∧ ¬ ((WatchFor "pod1" "Secret" none none).errorToCaller ≠ none) := by
  decide

/-- Claim C4 as amended: when `WatchFor` is invoked with an unsupported
resource kind, or watcher construction against the control plane fails, the
readiness signal is resolved false immediately without blocking (no watch is
started, the function returns at once) and the setup error is printed to
standard output; no error value is returned to the immediate caller, since
the function's return signature is empty. -/
theorem watchFor_setup_failure (name resourceType : String)
    (connectErr : Option String) (e : String)
    (h : watchForSetupError resourceType connectErr = some e) :
    WatchFor name resourceType connectErr none =
      { ch := some false
        logged := ["Error in WatchFor: " ++ e]
        errorToCaller := none
        startedWatch := false } := by
  simp [WatchFor, h, TrySend]

/-- Witness for C4 (amended): the unsupported resource kind "Secret". -/
theorem watchFor_setup_failure_witness :
    WatchFor "pod1" "Secret" none none =
      { ch := some false
        logged := ["Error in WatchFor: Unsupported resource type for watcher"]
        errorToCaller := none
        startedWatch := false } :=
  watchFor_setup_failure "pod1" "Secret" none
    "Unsupported resource type for watcher" (by decide)

/-! ## managed.User naming (src/managed/managed.go)

Strings are modelled as lists of characters; `strings.Replace` with a
single-character pattern and count -1 is exactly a character-wise map. -/

/-- `managed.User.GetUserString`: replace every "@" and then every "." of
the UserID with "-". -/
def GetUserString (userID : List Char) : List Char :=
  (userID.map fun c => if c = '@' then '-' else c).map
    fun c => if c = '.' then '-' else c

/-- `managed.User.GetStoragePVName`: the fixed prefix "user-storage-"
followed by the user string. -/
def GetStoragePVName (userID : List Char) : List Char :=
  "user-storage-".toList ++ GetUserString userID

/-- Counterexample to C6: the distinct user identifiers "a@b" and "a.b" are
mapped to the same user string (both become "a-b") and hence to the same
storage PV/PVC name, so `GetUserString` is not collision-free over all
identifiers. -/
theorem getUserString_collision_counterexample :
    GetUserString "a@b".toList = GetUserString "a.b".toList
    ∧ GetStoragePVName "a@b".toList = GetStoragePVName "a.b".toList
    ∧ "a@b".toList ≠ "a.b".toList := by
  decide

/-- Claim C6 as amended: the naming is deterministic (it is a pure function
of the identifier), and it is collision-free on identifiers containing
neither "." nor "-": two distinct such identifiers always receive distinct
user strings and distinct storage PV/PVC names.  (Identifiers differing only
in "@"/"."/"-" at the same position can collide, see the counterexample.) -/
theorem getUserString_injective_no_dot_dash (u v : List Char)
    (hu : ∀ c ∈ u, c ≠ '.' ∧ c ≠ '-') (hv : ∀ c ∈ v, c ≠ '.' ∧ c ≠ '-')
    (hne : u ≠ v) :
    GetUserString u ≠ GetUserString v ∧ GetStoragePVName u ≠ GetStoragePVName v := by
  have hinv : ∀ (w : List Char), (∀ c ∈ w, c ≠ '.' ∧ c ≠ '-') →
      (GetUserString w).map (fun c => if c = '-' then '@' else c) = w := by
    intro w hw
    rw [GetUserString, List.map_map, List.map_map]
    rw [List.map_congr_left (g := id) ?_, List.map_id]
    intro c hc
    obtain ⟨hdot, hdash⟩ := hw c hc
    by_cases hat : c = '@'
    · simp [Function.comp, hat]
    · simp [Function.comp, hat, hdot, hdash]
  have hus : GetUserString u ≠ GetUserString v := by
    intro heq
    apply hne
    calc u = (GetUserString u).map (fun c => if c = '-' then '@' else c) :=
            (hinv u hu).symm
      _ = (GetUserString v).map (fun c => if c = '-' then '@' else c) := by rw [heq]
      _ = v := hinv v hv
  refine ⟨hus, ?_⟩
  intro heq
  exact hus (List.append_cancel_left heq)

/-- Witness for C6 (amended): two concrete distinct identifiers without "."
or "-" get distinct user strings and storage names. -/
theorem getUserString_injective_witness :
    GetUserString "alice@dtu".toList ≠ GetUserString "bob@dtu".toList
    ∧ GetStoragePVName "alice@dtu".toList ≠ GetStoragePVName "bob@dtu".toList :=
  getUserString_injective_no_dot_dash "alice@dtu".toList "bob@dtu".toList
    (by decide) (by decide) (by decide)

/-! ## managed.Pod.getTmpFile (src/managed/managed.go)

The remote `cat /tmp/key` execution is modelled by its outcome: the error
of the PodExec call, and the bytes it wrote to stdout and stderr (bytes as
natural numbers).  Error message strings are abbreviated. -/

/-- `managed.tokenByteLimit`. -/
def tokenByteLimit : Nat := 4096

/-- `managed.Pod.getTmpFile`: fail when PodExec failed or stdout is empty;
otherwise return all of stdout when it is shorter than `tokenByteLimit`
bytes, and exactly its first `tokenByteLimit` bytes otherwise. -/
def getTmpFile (execErr : Option String) (stdout : List Nat) (stderrText : String) :
    Except String (List Nat) :=
  match execErr with
  | some e => Except.error ("Couldn't call pod exec: " ++ e)
  | none =>
    if stdout.length = 0 then
      Except.error ("Empty response. Stderr: " ++ stderrText)
    else if stdout.length < tokenByteLimit then
      Except.ok stdout
    else
      Except.ok (stdout.take tokenByteLimit)

/-- Claim C9: whenever `getTmpFile` returns a value, that value is the first
`tokenByteLimit` (4096) bytes of the file: at most 4096 bytes long, equal to
the whole contents when they are 4096 bytes or fewer, and equal to exactly
the first 4096 bytes when they are longer. -/
theorem getTmpFile_byte_ceiling (stdout : List Nat) (stderrText : String)
    (h : stdout ≠ []) :
    getTmpFile none stdout stderrText = Except.ok (stdout.take tokenByteLimit)
    ∧ (stdout.take tokenByteLimit).length ≤ tokenByteLimit
    ∧ (stdout.length ≤ tokenByteLimit → stdout.take tokenByteLimit = stdout)
    ∧ (tokenByteLimit < stdout.length →
        (stdout.take tokenByteLimit).length = tokenByteLimit) := by
  have hlen : stdout.length ≠ 0 := by simpa using h
  refine ⟨?_, ?_, ?_, ?_⟩
  · by_cases hlt : stdout.length < tokenByteLimit
    · have htake : stdout.take tokenByteLimit = stdout :=
        List.take_of_length_le (le_of_lt hlt)
      simp [getTmpFile, hlen, hlt, htake]
    · simp [getTmpFile, hlen, hlt]
  · simp [List.length_take]
  · intro hle; exact List.take_of_length_le hle
  · intro hgt; simp [List.length_take, le_of_lt hgt]

/-- Witness for C9: a three-byte file is returned whole. -/
theorem getTmpFile_byte_ceiling_witness :
    getTmpFile none [104, 105, 10] "" = Except.ok ([104, 105, 10].take tokenByteLimit)
    ∧ ([104, 105, 10].take tokenByteLimit).length ≤ tokenByteLimit
    ∧ ([104, 105, 10].length ≤ tokenByteLimit →
        [104, 105, 10].take tokenByteLimit = [104, 105, 10])
    ∧ (tokenByteLimit < [104, 105, 10].length →
        ([104, 105, 10].take tokenByteLimit).length = tokenByteLimit) :=
  getTmpFile_byte_ceiling [104, 105, 10] "" (by decide)

/-! ## managed.Pod.fillAllTmpFiles (src/managed/managed.go)

The running container answers each `getTmpFile` attempt; `PodExecEnv` maps
a key and an attempt index to that answer.  `tokens` is the Go map
`p.cache.tokens`, modelled as a function into `Option`. -/

/-- Outcome of one PodExec invocation for one key: the call's error and the
captured stdout/stderr. -/
structure PodExecOutcome where
  execErr : Option String
  stdout : List Nat
  stderrText : String

/-- The container's answers: for a key and the index of the attempt (the
retry loop counter; a one-try refresh uses index 0), the PodExec outcome. -/
def PodExecEnv := String → Nat → PodExecOutcome

/-- The cache's `tokens` map. -/
def TokensMap := String → Option (List Nat)

/-- The result of `p.getTmpFile(key)` at attempt `i` of the given
environment. -/
def getTmpFileAt (env : PodExecEnv) (key : String) (i : Nat) :
    Except String (List Nat) :=
  getTmpFile (env key i).execErr (env key i).stdout (env key i).stderrText

/-- The first return value of Go's `getTmpFile`: the extracted bytes on
success, and the zero value "" (empty) alongside an error. -/
def valueOf : Except String (List Nat) → List Nat
  | Except.ok v => v
  | Except.error _ => []

/-- The Go statement `p.cache.tokens[key], err = p.getTmpFile(key)`: the map
entry is assigned the first return value in both cases — the extracted bytes
on success, the empty string on error. -/
def assignToken (tokens : TokensMap) (key : String) (r : Except String (List Nat)) :
    TokensMap :=
  fun k => if k = key then some (valueOf r) else tokens k

/-- The retry loop of `fillAllTmpFiles` for one key in new-pod mode
(`for i := 0; i < 10; i++`): each iteration assigns the attempt's first
return value into the map, then retries on error (after a one-second sleep,
irrelevant to the result) and breaks on success. -/
def retryFill (env : PodExecEnv) (key : String) :
    Nat → Nat → TokensMap → TokensMap
  | _, 0, tokens => tokens
  | i, remaining + 1, tokens =>
    match getTmpFileAt env key i with
    | Except.ok v => assignToken tokens key (Except.ok v)
    | Except.error e =>
      retryFill env key (i + 1) remaining (assignToken tokens key (Except.error e))

/-- The value the loops leave in `tokens[key]`: the first successful
attempt's bytes, or "" when every allowed attempt failed. -/
def retryOutcome (env : PodExecEnv) (key : String) : Nat → Nat → List Nat
  | _, 0 => []
  | i, remaining + 1 =>
    match getTmpFileAt env key i with
    | Except.ok v => v
    | Except.error _ => retryOutcome env key (i + 1) remaining

/-- Processing of one marked key by `fillAllTmpFiles`: one try when
refreshing, the ten-attempt retry loop for a new pod. -/
def fillStep (oneTry : Bool) (env : PodExecEnv) (tokens : TokensMap)
    (key : String) : TokensMap :=
  if oneTry then assignToken tokens key (getTmpFileAt env key 0)
  else retryFill env key 0 10 tokens

/-- `managed.Pod.fillAllTmpFiles`: collect the annotation keys whose value
is "copyForFrontend", then fill `tokens[key]` for each (the `fmt.Printf`
logging of failed attempts does not affect the cache). -/
def fillAllTmpFiles (oneTry : Bool) (env : PodExecEnv)
    (annots : List (String × String)) (tokens : TokensMap) : TokensMap :=
  ((annots.filter fun kv => decide (kv.2 = "copyForFrontend")).map Prod.fst).foldl
    (fillStep oneTry env) tokens

/-- The value `fillAllTmpFiles` leaves under a marked key. -/
def fillOutcome (oneTry : Bool) (env : PodExecEnv) (key : String) : List Nat :=
  if oneTry then valueOf (getTmpFileAt env key 0) else retryOutcome env key 0 10

theorem retryFill_at_key (env : PodExecEnv) (key : String) :
    ∀ (remaining i : Nat) (tokens : TokensMap), 0 < remaining →
      retryFill env key i remaining tokens key
        = some (retryOutcome env key i remaining) := by
  intro remaining
  induction remaining with
  | zero => intro i tokens h; exact absurd h (by omega)
  | succ r ih =>
    intro i tokens _
    cases hr : getTmpFileAt env key i with
    | ok v => simp [retryFill, retryOutcome, hr, assignToken, valueOf]
    | error e =>
      cases r with
      | zero => simp [retryFill, retryOutcome, hr, assignToken, valueOf]
      | succ r' =>
        simp only [retryFill, retryOutcome, hr]
        exact ih (i + 1) _ (by omega)

theorem retryFill_other_key (env : PodExecEnv) (key : String) :
    ∀ (remaining i : Nat) (tokens : TokensMap) (k : String), k ≠ key →
      retryFill env key i remaining tokens k = tokens k := by
  intro remaining
  induction remaining with
  | zero => intro i tokens k _; rfl
  | succ r ih =>
    intro i tokens k hk
    cases hr : getTmpFileAt env key i with
    | ok v => simp [retryFill, hr, assignToken, hk]
    | error e =>
      simp only [retryFill, hr]
      rw [ih (i + 1) _ k hk]
      simp [assignToken, hk]

theorem fillStep_at_key (oneTry : Bool) (env : PodExecEnv) (tokens : TokensMap)
    (key : String) :
    fillStep oneTry env tokens key key = some (fillOutcome oneTry env key) := by
  cases oneTry with
  | true => simp [fillStep, fillOutcome, assignToken]
  | false =>
    have h1 : fillStep false env tokens key = retryFill env key 0 10 tokens := rfl
    have h2 : fillOutcome false env key = retryOutcome env key 0 10 := rfl
    rw [h1, h2]
    exact retryFill_at_key env key 10 0 tokens (by omega)

theorem fillStep_other_key (oneTry : Bool) (env : PodExecEnv) (tokens : TokensMap)
    (key k : String) (hk : k ≠ key) :
    fillStep oneTry env tokens key k = tokens k := by
  cases oneTry with
  | true => simp [fillStep, assignToken, hk]
  | false =>
    have h1 : fillStep false env tokens key = retryFill env key 0 10 tokens := rfl
    rw [h1]
    exact retryFill_other_key env key 10 0 tokens k hk

theorem fillFoldl_not_mem (oneTry : Bool) (env : PodExecEnv) :
    ∀ (l : List String) (tokens : TokensMap) (key : String), key ∉ l →
      l.foldl (fillStep oneTry env) tokens key = tokens key := by
  intro l
  induction l with
  | nil => intro tokens key _; rfl
  | cons k0 rest ih =>
    intro tokens key hk
    have h1 : key ≠ k0 := fun h => hk (by simp [h])
    have h2 : key ∉ rest := fun h => hk (by simp [h])
    rw [List.foldl_cons, ih _ key h2, fillStep_other_key _ _ _ _ _ h1]

theorem fillFoldl_mem (oneTry : Bool) (env : PodExecEnv) :
    ∀ (l : List String) (tokens : TokensMap) (key : String), key ∈ l →
      l.foldl (fillStep oneTry env) tokens key = some (fillOutcome oneTry env key) := by
  intro l
  induction l with
  | nil => intro tokens key hk; simp at hk
  | cons k0 rest ih =>
    intro tokens key hk
    by_cases hmem : key ∈ rest
    · rw [List.foldl_cons]; exact ih _ key hmem
    · have hk0 : key = k0 := by
        rcases List.mem_cons.mp hk with h | h
        · exact h
        · exact absurd h hmem
      subst hk0
      rw [List.foldl_cons, fillFoldl_not_mem oneTry env rest _ key hmem,
        fillStep_at_key]

theorem retryOutcome_nonempty_from_success (env : PodExecEnv) (key : String) :
    ∀ (remaining i : Nat) (v : List Nat),
      retryOutcome env key i remaining = v → v ≠ [] →
      ∃ j, getTmpFileAt env key j = Except.ok v := by
  intro remaining
  induction remaining with
  | zero =>
    intro i v hv hne
    exact absurd hv.symm hne
  | succ r ih =>
    intro i v hv hne
    cases hr : getTmpFileAt env key i with
    | ok w =>
      refine ⟨i, ?_⟩
      rw [hr]
      simp only [retryOutcome, hr] at hv
      rw [hv]
    | error e =>
      simp only [retryOutcome, hr] at hv
      exact ih (i + 1) v hv hne

theorem getTmpFile_ok_nonempty (execErr : Option String) (stdout : List Nat)
    (stderrText : String) (v : List Nat)
    (h : getTmpFile execErr stdout stderrText = Except.ok v) : v ≠ [] := by
  cases execErr with
  | some e => simp [getTmpFile] at h
  | none =>
    by_cases h0 : stdout.length = 0
    · simp [getTmpFile, h0] at h
    · by_cases hlt : stdout.length < tokenByteLimit
      · simp only [getTmpFile, if_pos h0, h0, if_neg h0, if_pos hlt] at h
        cases h
        simpa using h0
      · simp only [getTmpFile, if_neg h0, if_neg hlt] at h
        cases h
        intro hnil
        have hlen : (stdout.take tokenByteLimit).length = 0 := by rw [hnil]; rfl
        rw [List.length_take] at hlen
        have hge : tokenByteLimit ≤ stdout.length := Nat.le_of_not_lt hlt
        have h4096 : tokenByteLimit = 4096 := rfl
        omega

/-- Counterexample to C5 at a concrete input: the container never produces
the file, so every extraction attempt fails, yet after `fillAllTmpFiles`
(in both modes) the marked key "k" is present in `tokens`, mapped to the
empty string — the Go two-value assignment stores getTmpFile's first return
value even on error — refuting the claim that a failed attempt leaves the
key absent. -/
theorem fillAllTmpFiles_failed_key_present_counterexample :
    fillAllTmpFiles true (fun _ _ => ⟨some "exec failed", [], ""⟩)
        [("k", "copyForFrontend")] (fun _ => none) "k" = some []
    ∧ fillAllTmpFiles false (fun _ _ => ⟨some "exec failed", [], ""⟩)
        [("k", "copyForFrontend")] (fun _ => none) "k" = some []
    ∧ ¬ (fillAllTmpFiles true (fun _ _ => ⟨some "exec failed", [], ""⟩)
        [("k", "copyForFrontend")] (fun _ => none) "k" = none) := by
  refine ⟨by decide, by decide, by decide⟩

/-- Claim C5 as amended: after `fillAllTmpFiles` every key marked
"copyForFrontend" is present in `tokens` (the Go assignment writes the map
entry whether or not the attempt failed); the stored value is the first
successful attempt's extraction (one attempt in refresh mode, up to ten in
new-pod mode), which is always non-empty, and the empty string when no
allowed attempt succeeded — so a key mapped to a non-empty value, rather
than a present key, is what means extraction has succeeded. -/
theorem fillAllTmpFiles_marked_key (oneTry : Bool) (env : PodExecEnv)
    (annots : List (String × String)) (tokens : TokensMap) (key : String)
    (hk : (key, "copyForFrontend") ∈ annots) :
    fillAllTmpFiles oneTry env annots tokens key
        = some (fillOutcome oneTry env key)
    ∧ (∀ v, fillOutcome oneTry env key = v → v ≠ [] →
        ∃ j, getTmpFileAt env key j = Except.ok v)
    ∧ (∀ j v, getTmpFileAt env key j = Except.ok v → v ≠ []) := by
  refine ⟨?_, ?_, ?_⟩
  · apply fillFoldl_mem
    refine List.mem_map.mpr ⟨(key, "copyForFrontend"), ?_, rfl⟩
    refine List.mem_filter.mpr ⟨hk, by simp⟩
  · intro v hv hne
    cases oneTry with
    | true =>
      have hout : fillOutcome true env key = valueOf (getTmpFileAt env key 0) := rfl
      rw [hout] at hv
      cases hr : getTmpFileAt env key 0 with
      | ok w =>
        rw [hr] at hv
        simp only [valueOf] at hv
        exact ⟨0, by rw [hr, hv]⟩
      | error e =>
        rw [hr] at hv
        simp only [valueOf] at hv
        exact absurd hv.symm hne
    | false =>
      have hout : fillOutcome false env key = retryOutcome env key 0 10 := rfl
      rw [hout] at hv
      exact retryOutcome_nonempty_from_success env key 10 0 v hv hne
  · intro j v hv
    exact getTmpFile_ok_nonempty _ _ _ v hv

/-- Witness for C5 (amended): an environment whose first attempt succeeds
with the bytes [104, 105]. -/
theorem fillAllTmpFiles_marked_key_witness :
    fillAllTmpFiles true (fun _ _ => ⟨none, [104, 105], ""⟩)
        [("k", "copyForFrontend")] (fun _ => none) "k"
      = some (fillOutcome true (fun _ _ => ⟨none, [104, 105], ""⟩) "k") :=
  (fillAllTmpFiles_marked_key true (fun _ _ => ⟨none, [104, 105], ""⟩)
    [("k", "copyForFrontend")] (fun _ => none) "k" (by decide)).1

/-! ## managed.Pod.savePodCache / loadPodCache (src/managed/managed.go)

The cache struct is serialized with encoding/gob.  Per gob's documented
contract, structs encode and decode only their exported fields (those whose
Go identifier starts with an upper-case letter), and encoding or decoding a
struct type with no exported fields fails with the error
"gob: type ... has no exported fields".  The encoded stream is modelled as
the list of (exported field name, field value) pairs. -/

/-- `managed.podCache`: the two string-to-string mappings. -/
structure podCache where
  tokens : List (String × String)
  otherResourceInfo : List (String × String)
deriving DecidableEq

/-- A gob stream for a podCache: the encoded (field name, value) pairs. -/
abbrev GobValue := List (String × List (String × String))

/-- Look up an encoded field in a gob stream. -/
def gobField (b : GobValue) (fieldName : String) : Option (List (String × String)) :=
  Option.map Prod.snd (List.find? (fun p => decide (p.1 = fieldName)) b)

/-- A Go struct field is visible to encoding/gob exactly when its identifier
is exported, i.e. starts with an upper-case letter. -/
def goExported (fieldName : String) : Bool := fieldName.front.isUpper

/-- The field names of `managed.podCache` exactly as written in the source:
both lower-case, hence unexported. -/
def podCacheFieldNames : List String := ["tokens", "otherResourceInfo"]

/-- Whether gob accepts the podCache struct type at all: it does only if at
least one field is exported. -/
def gobEncodablePodCache : Bool := podCacheFieldNames.any goExported

/-- gob encoding of a podCache value: the exported fields with their values,
or gob's no-exported-fields error. -/
def gobEncodePodCache (c : podCache) : Except String GobValue :=
  if gobEncodablePodCache = true then
    Except.ok ((podCacheFieldNames.filter goExported).map fun fieldName =>
      (fieldName, if fieldName = "tokens" then c.tokens else c.otherResourceInfo))
  else
    Except.error "gob: type managed.podCache has no exported fields"

/-- `managed.Pod.savePodCache`: gob-encode `p.cache` (returning the encoder
error if it fails), then remove the pod's cache file and write the buffer.
`fs` is the pod's cache file before the call, the result the file after. -/
def savePodCache (c : podCache) (fs : Option GobValue) :
    Except String (Option GobValue) :=
  match gobEncodePodCache c with
  | Except.error e => Except.error e
  | Except.ok b => Except.ok (some b)

/-- `managed.Pod.loadPodCache`: open the pod's cache file (an absent file is
an open error) and gob-decode it into `p.cache`; the decoder applies the
same exported-fields rule as the encoder and rejects the podCache type. -/
def loadPodCache (fs : Option GobValue) (c : podCache) : Except String podCache :=
  match fs with
  | none => Except.error "open cache file: no such file or directory"
  | some b =>
    if gobEncodablePodCache = true then
      Except.ok
        { tokens := (gobField b "tokens").getD c.tokens
          otherResourceInfo := (gobField b "otherResourceInfo").getD c.otherResourceInfo }
    else
      Except.error "gob: type managed.podCache has no exported fields"

/-- Claim C3 / code bug: the save/load round trip required by the spec is
impossible — both fields of `managed.podCache` are unexported, so gob's
encoder rejects the value and `savePodCache` returns an error (writing no
file) for every cache contents, and `loadPodCache` likewise fails whether or
not a cache file exists. -/
theorem savePodCache_roundtrip_impossible (c : podCache) (fs : Option GobValue) :
    savePodCache c fs
        = Except.error "gob: type managed.podCache has no exported fields"
    ∧ (∀ b : GobValue, loadPodCache (some b) c
        = Except.error "gob: type managed.podCache has no exported fields")
    ∧ loadPodCache none c
        = Except.error "open cache file: no such file or directory" := by
  have hb : gobEncodablePodCache = false := by decide
  refine ⟨?_, ?_, rfl⟩
  · simp [savePodCache, gobEncodePodCache, hb]
  · intro b
    simp [loadPodCache, hb]

/-! ## managed.Pod.getSshPort (src/managed/managed.go)

The service list the control plane returns for the pod is explicit.  A
service port's TargetPort is a Kubernetes IntOrString; `getSshPort` compares
it against `intstr.FromInt(22)`.  NodePort is an int32.  The final
`string(sshPort)` is Go's integer-to-string conversion: the UTF-8 string of
the code point `sshPort`, or the replacement character U+FFFD when the value
is not a valid code point (negative, a surrogate, or above 0x10FFFF). -/

/-- Kubernetes `intstr.IntOrString`. -/
inductive IntOrString where
  | int (i : Int)
  | strVal (s : String)
deriving DecidableEq

/-- One entry of a Service's port list: the fields `getSshPort` consults. -/
structure ServicePort where
  targetPort : IntOrString
  nodePort : Int
deriving DecidableEq

/-- A Kubernetes Service: the fields `getSshPort` consults. -/
structure Service where
  name : String
  ports : List ServicePort
deriving DecidableEq

/-- Go's `string(n)` conversion for an int32: the one-rune string of code
point `n`, or "�" when `n` is not a valid Unicode code point. -/
def goStringOfInt32 (n : Int) : List Char :=
  if 0 ≤ n ∧ Nat.isValidChar n.toNat then [Char.ofNat n.toNat]
  else [Char.ofNat 0xFFFD]

/-- The inner loop of `getSshPort`: the first port entry whose TargetPort is
`intstr.FromInt(22)` provides the NodePort; `sshPort` stays 0 otherwise. -/
def findPort22 : List ServicePort → Int
  | [] => 0
  | p :: rest =>
    if p.targetPort = IntOrString.int 22 then p.nodePort else findPort22 rest

/-- The outer loop of `getSshPort`: scan the pod's services for the one
named `<podName>-ssh` (breaking there whether or not a port matches). -/
def findSshServicePort (podName : String) : List Service → Int
  | [] => 0
  | s :: rest =>
    if s.name = podName ++ "-ssh" then findPort22 s.ports
    else findSshServicePort podName rest

/-- `managed.Pod.getSshPort`: list the pod's services (`listErr` models the
control-plane error), scan for the ssh service's node port, treat 0 as not
found, and return `string(sshPort)`. -/
def getSshPort (podName : String) (services : List Service)
    (listErr : Option String) : Except String (List Char) :=
  match listErr with
  | some e => Except.error e
  | none =>
    if findSshServicePort podName services = 0 then
      Except.error "Ssh service nodePort not found"
    else
      Except.ok (goStringOfInt32 (findSshServicePort podName services))

/-- `managed.Pod.fillOtherResourceInfo`: when the pod listens on container
port 22, store `getSshPort`'s result under the key "sshPort" of
`otherResourceInfo`; a getSshPort error is only logged. -/
def fillOtherResourceInfo (needsSsh : Bool) (podName : String)
    (services : List Service) (listErr : Option String)
    (otherResourceInfo : String → Option (List Char)) :
    String → Option (List Char) :=
  if needsSsh then
    match getSshPort podName services listErr with
    | Except.error _ => otherResourceInfo
    | Except.ok sshPort =>
      fun k => if k = "sshPort" then some sshPort else otherResourceInfo k
  else otherResourceInfo

/-- Decimal digit representation of a natural number (the notion the claim
rules out), with explicit fuel so that it evaluates by kernel reduction. -/
def decimalReprAux (fuel : Nat) (n : Nat) : List Char :=
  match fuel with
  | 0 => []
  | fuel' + 1 =>
    if n < 10 then [Char.ofNat (48 + n)]
    else decimalReprAux fuel' (n / 10) ++ [Char.ofNat (48 + n % 10)]

/-- Decimal digit representation of a natural number. -/
def decimalRepr (n : Nat) : List Char := decimalReprAux (n + 1) n

theorem decimalReprAux_ne_nil (fuel n : Nat) : decimalReprAux (fuel + 1) n ≠ [] := by
  by_cases h : n < 10
  · simp [decimalReprAux, h]
  · simp [decimalReprAux, h]

theorem char_ne_decimalRepr (m : Nat) (hm : 0 < m) :
    [Char.ofNat m] ≠ decimalRepr m := by
  by_cases h10 : m < 10
  · have hd : decimalRepr m = [Char.ofNat (48 + m)] := by
      simp [decimalRepr, decimalReprAux, h10]
    rw [hd]
    interval_cases m <;> decide
  · have hm9 : 9 < m := by omega
    have hd : decimalRepr m
        = decimalReprAux m (m / 10) ++ [Char.ofNat (48 + m % 10)] := by
      rw [decimalRepr]
      rw [show decimalReprAux (m + 1) m
          = if m < 10 then [Char.ofNat (48 + m)]
            else decimalReprAux m (m / 10) ++ [Char.ofNat (48 + m % 10)] from rfl]
      rw [if_neg h10]
    intro heq
    have hlen := congrArg List.length heq
    rw [hd] at hlen
    simp only [List.length_singleton, List.length_append] at hlen
    have hne : decimalReprAux m (m / 10) ≠ [] := by
      cases m with
      | zero => omega
      | succ k => exact decimalReprAux_ne_nil k ((k + 1) / 10)
    have hpos : 0 < (decimalReprAux m (m / 10)).length :=
      List.length_pos.mpr hne
    omega

/-- Counterexample to C10: a node port whose value is the surrogate code
point 0xD800 = 55296 (an int32 a NodePort field can hold).  Go's
`string(int32)` conversion maps it to the replacement character "�",
whose code point is 0xFFFD, not 55296 — so the returned string is not
always the one-rune string whose code point is the port number. -/
theorem getSshPort_surrogate_counterexample :
    getSshPort "p" [⟨"p-ssh", [⟨IntOrString.int 22, 55296⟩]⟩] none
        = Except.ok [Char.ofNat 0xFFFD]
    ∧ (Char.ofNat 0xFFFD).toNat ≠ 55296 := by
  constructor
  · rfl
  · decide

/-- Claim C10 as amended: for every node port `n > 0` found by `getSshPort`
that is a valid Unicode code point (every real node port, 1–65535 minus the
surrogate range, is), the returned value — stored under the "sshPort" key of
`otherResourceInfo` — is the one-rune string whose code point is `n`, the
result of Go's `string(int32)` conversion, and never the decimal digit
representation of the port number; a non-scalar value such as a surrogate
would instead yield the replacement character "�". -/
theorem getSshPort_rune_not_decimal (podName : String) (services : List Service)
    (n : Int) (hfind : findSshServicePort podName services = n) (hpos : 0 < n)
    (hvalid : Nat.isValidChar n.toNat) :
    getSshPort podName services none = Except.ok [Char.ofNat n.toNat]
    ∧ [Char.ofNat n.toNat] ≠ decimalRepr n.toNat
    ∧ fillOtherResourceInfo true podName services none (fun _ => none) "sshPort"
        = some [Char.ofNat n.toNat] := by
  have hn0 : n ≠ 0 := by omega
  have hok : getSshPort podName services none = Except.ok [Char.ofNat n.toNat] := by
    simp only [getSshPort, hfind]
    rw [if_neg hn0]
    rw [goStringOfInt32, if_pos ⟨le_of_lt hpos, hvalid⟩]
  refine ⟨hok, ?_, ?_⟩
  · have hmpos : 0 < n.toNat := by omega
    exact char_ne_decimalRepr n.toNat hmpos
  · simp [fillOtherResourceInfo, hok]

/-- Witness for C10 (amended): the default-range node port 30000 on the ssh
service of pod "p". -/
theorem getSshPort_rune_not_decimal_witness :
    getSshPort "p" [⟨"p-ssh", [⟨IntOrString.int 22, 30000⟩]⟩] none
        = Except.ok [Char.ofNat (Int.toNat 30000)]
    ∧ [Char.ofNat (Int.toNat 30000)] ≠ decimalRepr (Int.toNat 30000)
    ∧ fillOtherResourceInfo true "p" [⟨"p-ssh", [⟨IntOrString.int 22, 30000⟩]⟩]
        none (fun _ => none) "sshPort" = some [Char.ofNat (Int.toNat 30000)] :=
  getSshPort_rune_not_decimal "p" [⟨"p-ssh", [⟨IntOrString.int 22, 30000⟩]⟩]
    30000 (by decide) (by decide)
    (by rw [show Int.toNat 30000 = 30000 from rfl]; exact Or.inl (by omega))

end UserPods
